import Mathlib

/-!
# Verification of the io-uring-buf-ring buffer-ring library

Shallow embedding of `src/buf_ring.rs` and `src/buffer_id.rs`.

Machine arithmetic is modelled over `Nat`/`Int` with explicit wrapping:
`wrap16`, `wrap32`, `wrap64` for the unsigned widths, `i32wrap` for
`i32` (two-complement).  The memory-mapped region is modelled as the
ring structure carrying the descriptor array contents (`descs`) and the
embedded 16-bit tail cursor (`tail`); the bytes of the buffer storage are
an abstract byte memory `mem : Nat → Nat` indexed by address.
`mmap`/`io_uring` syscall outcomes are passed in as explicit oracle
arguments, since their results are decided outside this library.
-/

namespace BufRingLib

def U16_MOD : Nat := 65536
def U32_MOD : Nat := 4294967296
def U64_MOD : Nat := 18446744073709551616

def wrap16 (n : Nat) : Nat := n % U16_MOD
def wrap32 (n : Nat) : Nat := n % U32_MOD
def wrap64 (n : Nat) : Nat := n % U64_MOD

/-- Wrap of an integer into the `i32` range (two-complement). -/
def i32wrap (x : Int) : Int := (x + 2 ^ 31) % 2 ^ 32 - 2 ^ 31

/-- Negation on `i32`: `-x` wraps on overflow, which happens only at
`i32::MIN` (debug builds of the source would panic there instead). -/
def i32neg (x : Int) : Int := i32wrap (-x)

/-- The `as usize` cast of an `i32` (64-bit target). -/
def usizeCast (x : Int) : Nat := (x % (18446744073709551616 : Int)).toNat

/-- Layout of `io_uring::types::BufRingEntry` = `struct io_uring_buf`:
`addr: u64, len: u32, bid: u16, resv: u16`, 16 bytes.
The `resv` field of slot 0 doubles as the shared tail; we model the tail
as the separate `BufRing.tail` field. -/
structure BufRingEntry where
  addr : Nat
  len : Nat
  bid : Nat
deriving DecidableEq, Repr

/-- Value of `size_of` for `BufRingEntry`. -/
def entrySize : Nat := 16

def BufRingEntry.zero : BufRingEntry := ⟨0, 0, 0⟩

/-- The phantom state parameter of `BufRing<State>`
(`state::Uninit`, `state::Registered`, `state::Init`). -/
inductive RingState where
  | Uninit
  | Registered
  | Init
deriving DecidableEq, Repr

/-- State of a `BufRing` value together with the contents of its mapping:
`descs` is the descriptor array (length `entries`) and `tail` the embedded
16-bit tail cursor.  Addresses (`base`, `buffer_base`) are plain naturals. -/
structure BufRing (St : RingState) where
  base : Nat
  entries : Nat
  buf_size : Nat
  mask : Nat
  bgid : Nat
  buffer_base : Nat
  descs : List BufRingEntry
  tail : Nat
deriving DecidableEq, Repr

/-- Rebuild the record at a different phantom state, as the Rust
destructure-and-rebuild at each state transition does. -/
def retag (r : BufRing St) : BufRing T :=
  { base := r.base, entries := r.entries, buf_size := r.buf_size,
    mask := r.mask, bgid := r.bgid, buffer_base := r.buffer_base,
    descs := r.descs, tail := r.tail }

inductive MapPrivacy where
  | Private
  | Shared
deriving DecidableEq, Repr

structure MapOpts where
  privacy : MapPrivacy
  populate : Bool
deriving DecidableEq, Repr

def MapOpts.default : MapOpts := ⟨.Private, false⟩

/-- Outcome of the `mmap` call, decided by the OS: failure, or a base
address for the fresh zero-filled mapping. -/
inductive MmapResult where
  | fail
  | ok (raw_base : Nat)
deriving DecidableEq, Repr

/-- Errors of `new_with_opts`.  `invalidInput` is
`std::io::ErrorKind::InvalidInput`; `mapFailed` is the propagated
`mmap` OS error; `powOverflow` models `u16::next_power_of_two`
overflowing for inputs above `2^15` (a debug-build panic; in release it
wraps to 0 and the subsequent `mask = entries - 1` / zero-sized `mmap`
fail, so creation does not succeed either way). -/
inductive CreateErr where
  | invalidInput
  | powOverflow
  | mapFailed
deriving DecidableEq, Repr

/-- Helper for `u16::is_power_of_two` (exactly one bit set): fuel-indexed
structural recursion so that the kernel can evaluate it. -/
def isPow2Aux : Nat → Nat → Bool
  | 0, _ => false
  | _ + 1, 0 => false
  | _ + 1, 1 => true
  | fuel + 1, n + 2 => (n + 2) % 2 == 0 && isPow2Aux fuel ((n + 2) / 2)

/-- Model of `u16::is_power_of_two`; fuel 17 covers every 16-bit input. -/
def isPow2 (n : Nat) : Bool := isPow2Aux 17 n

/-- Helper for `u16::next_power_of_two` before the overflow check: the
smallest power of two `≥ n` over `Nat`, fuel-indexed structural recursion. -/
def nextPow2Aux : Nat → Nat → Nat
  | 0, _ => 1
  | fuel + 1, n => if n ≤ 1 then 1 else 2 * nextPow2Aux fuel ((n + 1) / 2)

/-- Model of `u16::next_power_of_two` over `Nat` (no overflow cutoff here;
the overflow check is in `new_with_opts`); fuel 17 covers 16-bit inputs. -/
def nextPow2 (n : Nat) : Nat := nextPow2Aux 17 n

/-- The entry-count normalization performed by `new_with_opts`:
`if !entries.is_power_of_two() { entries = entries.next_power_of_two() }`. -/
def normEntries (n : Nat) : Nat := if isPow2 n then n else nextPow2 n

/-- Does control in `new_with_opts` reach the `mmap` call?  (False when the
entry count is rejected up front, or when `next_power_of_two` overflows
`u16` before the mapping is requested.) -/
def reachesMmap (entries : Nat) : Bool :=
  if entries = 0 || entries = 65535 then false
  else decide (normEntries entries < 65536)

/-- Model of `BufRing::<Uninit>::new_with_opts`: `entries` is the requested
`u16` count, `buf_size` the `u32` per-buffer size, `mm` the `mmap` oracle. -/
def new_with_opts (entries : Nat) (buf_size : Nat) (bgid : Nat)
    (_opts : MapOpts) (mm : MmapResult) : Except CreateErr (BufRing .Uninit) :=
  if entries = 0 ∨ entries = 65535 then .error .invalidInput
  else
    let e := normEntries entries
    if 65536 ≤ e then .error .powOverflow
    else
      let mask := e - 1
      match mm with
      | .fail => .error .mapFailed
      | .ok raw_base =>
        .ok { base := raw_base
              entries := e
              buf_size := buf_size
              mask := mask
              bgid := bgid
              buffer_base := raw_base + e * entrySize
              descs := List.replicate e BufRingEntry.zero
              tail := 0 }

/-- Model of `BufRing::entries` (`self.entries as u16`). -/
def entriesFn (r : BufRing St) : Nat := wrap16 r.entries

/-- Model of `BufRing::get_buffer`:
`buffer_base.offset((buf_id as u32 * buf_size) as isize)`.
The multiplication is performed in `u32` and wraps modulo `2^32`. -/
def get_buffer (r : BufRing St) (buf_id : Nat) : Nat :=
  r.buffer_base + wrap32 (buf_id * r.buf_size)

/-- The descriptor `BufRing::add` writes for `buf_id`:
`set_addr(get_buffer(buf_id) as u64)`, `set_len(buf_size)`, `set_bid(buf_id)`. -/
def mkDesc (r : BufRing St) (buf_id : Nat) : BufRingEntry :=
  { addr := wrap64 (get_buffer r buf_id), len := r.buf_size, bid := wrap16 buf_id }

/-- Model of `BufRing::add`: writes the descriptor for `buf_id` at ring slot
`(self.tail() + buf_offset as u32) & self.mask`. -/
def add (r : BufRing St) (buf_id buf_offset : Nat) : BufRing St :=
  let offset := wrap32 (r.tail + buf_offset) &&& r.mask
  { r with descs := r.descs.set offset (mkDesc r buf_id) }

/-- Model of `BufRing::advance_`: `fetch_add(count)` on the `AtomicU16` tail. -/
def advance_ (r : BufRing St) (count : Nat) : BufRing St :=
  { r with tail := wrap16 (r.tail + count) }

/-- Model of `BufRing::<Init>::advance` (same increment, public wrapper). -/
def advance (r : BufRing .Init) (count : Nat) : BufRing .Init :=
  advance_ r count

/-- The loop body prefix of `BufRing::<Registered>::init`: the first `m`
iterations of `for i in 0..entries { self.add(i, i) }`. -/
def initFold (r : BufRing .Registered) (m : Nat) : BufRing .Registered :=
  (List.range m).foldl (fun acc i => add acc i i) r

/-- Model of `BufRing::<Registered>::init`: add every buffer id, then a
single `advance_(entries)`. -/
def init (r : BufRing .Registered) : BufRing .Init :=
  let e := entriesFn r
  retag (advance_ (initFold r e) e)

/-- Result of a fallible `io_uring` submitter call
(`register_buf_ring` / `unregister_buf_ring`), decided by the kernel. -/
inductive SubmitResult where
  | ok
  | err (code : Int)
deriving DecidableEq, Repr

/-- An `std::io::Error` produced from a raw OS error code. -/
inductive IOError where
  | osError (code : Int)
deriving DecidableEq, Repr

/-- Model of `BufRing::<Uninit>::register`: on submitter failure returns the
error together with the unchanged ring; on success rebuilds the same fields
at state `Registered`. -/
def register (r : BufRing .Uninit) (sub : SubmitResult) :
    Except (IOError × BufRing .Uninit) (BufRing .Registered) :=
  match sub with
  | .err e => .error (.osError e, r)
  | .ok => .ok (retag r)

/-- Model of `BufRing::unregister_` (used by `unregister` from both
`Registered` and `Init`): on submitter failure returns the error together
with the unchanged ring in its prior state. -/
def unregister_ (r : BufRing St) (sub : SubmitResult) :
    Except (IOError × BufRing St) (BufRing .Uninit) :=
  match sub with
  | .err e => .error (.osError e, r)
  | .ok => .ok (retag r)

/-- Completion record (`io_uring::cqueue::Entry`): the two accessors the resolver reads. -/
structure Cqe where
  flags : Nat
  result : Int
deriving DecidableEq, Repr

def IORING_CQE_F_BUFFER : Nat := 1
def IORING_CQE_BUFFER_SHIFT : Nat := 16

/-- The data of a resolved `BufferId` (which in Rust also holds the lifetime
parameters and the `&mut BufRing<Init>` borrow; the ring is passed
explicitly here). -/
structure BufferId where
  buf_id : Nat
  cqe_res : Int
deriving DecidableEq, Repr

/-- Model of `BufferId::new`: negative result first (error from the negated
code), then the `IORING_CQE_F_BUFFER` flag (absent means `Ok(None)`), else
the buffer id from the upper 16 flag bits. -/
def BufferId.new (cqe : Cqe) : Except IOError (Option BufferId) :=
  if cqe.result < 0 then .error (.osError (i32neg cqe.result))
  else if cqe.flags &&& IORING_CQE_F_BUFFER = 0 then .ok none
  else .ok (some { buf_id := wrap16 (cqe.flags >>> IORING_CQE_BUFFER_SHIFT),
                   cqe_res := cqe.result })

/-- Model of `BufRing::<Init>::buffer(buf_id)`: the full `buf_size`-byte
slice of buffer `buf_id`, read from byte memory `mem`. -/
def BufRing.bufferBytes (r : BufRing .Init) (mem : Nat → Nat) (buf_id : Nat) :
    List Nat :=
  (List.range r.buf_size).map (fun i => mem (get_buffer r buf_id + i))

/-- Model of `BufferId::buffer`, which returns
`&self.buf.buffer(self.buf_id)[..(self.cqe_res as _)]`.
Slicing a `buf_size`-long slice with `[..n]` panics when `n` exceeds the
length; the panic is modelled as `none`.  No clamping is performed. -/
def BufferId.buffer (b : BufferId) (r : BufRing .Init) (mem : Nat → Nat) :
    Option (List Nat) :=
  if usizeCast b.cqe_res ≤ (BufRing.bufferBytes r mem b.buf_id).length
  then some ((BufRing.bufferBytes r mem b.buf_id).take (usizeCast b.cqe_res))
  else none

/-- Model of `Drop for BufferId`: `self.buf.advance(1)` — and nothing else. -/
def BufferId.dropRing (_b : BufferId) (r : BufRing .Init) : BufRing .Init :=
  advance r 1

/-- Release protocol as the specification prescribes it for buffer id `bid`:
write one fresh descriptor for `bid` at the current tail slot mod mask, then
`advance(1)`.  Stated from the specification text, for comparison with
`BufferId.dropRing`. -/
def specRelease (r : BufRing .Init) (bid : Nat) : BufRing .Init :=
  advance (add r bid 0) 1


/-! ## Helper lemmas -/

theorem initFold_succ (r : BufRing .Registered) (m : Nat) :
    initFold r (m + 1) = add (initFold r m) m m := by
  unfold initFold
  rw [List.range_succ, List.foldl_append]
  rfl

theorem initFold_tail (r : BufRing .Registered) (m : Nat) :
    (initFold r m).tail = r.tail := by
  induction m with
  | zero => rfl
  | succ m ih => rw [initFold_succ, add, ih]

theorem initFold_mask (r : BufRing .Registered) (m : Nat) :
    (initFold r m).mask = r.mask := by
  induction m with
  | zero => rfl
  | succ m ih => rw [initFold_succ, add, ih]

theorem initFold_buffer_base (r : BufRing .Registered) (m : Nat) :
    (initFold r m).buffer_base = r.buffer_base := by
  induction m with
  | zero => rfl
  | succ m ih => rw [initFold_succ, add, ih]

theorem initFold_buf_size (r : BufRing .Registered) (m : Nat) :
    (initFold r m).buf_size = r.buf_size := by
  induction m with
  | zero => rfl
  | succ m ih => rw [initFold_succ, add, ih]

theorem initFold_entries (r : BufRing .Registered) (m : Nat) :
    (initFold r m).entries = r.entries := by
  induction m with
  | zero => rfl
  | succ m ih => rw [initFold_succ, add, ih]

theorem initFold_length (r : BufRing .Registered) (m : Nat) :
    (initFold r m).descs.length = r.descs.length := by
  induction m with
  | zero => rfl
  | succ m ih => rw [initFold_succ, add]; simpa using ih

theorem mkDesc_initFold (r : BufRing .Registered) (m x : Nat) :
    mkDesc (initFold r m) x = mkDesc r x := by
  unfold mkDesc get_buffer
  rw [initFold_buffer_base, initFold_buf_size]

theorem initFold_getElem (r : BufRing .Registered) (k : Nat)
    (hE : r.entries = 2 ^ k) (hmask : r.mask = r.entries - 1)
    (hlen : r.descs.length = r.entries) (htail : r.tail < 65536) (hk : k < 16) :
    ∀ m, m ≤ r.entries → ∀ id, id < m →
      ((initFold r m).descs)[(r.tail + id) % 2 ^ k]? = some (mkDesc r id) := by
  have hpow : (2 : Nat) ^ k ≤ 65536 := by
    calc (2 : Nat) ^ k ≤ 2 ^ 16 := Nat.pow_le_pow_right (by omega) (by omega)
    _ = 65536 := by norm_num
  intro m
  induction m with
  | zero => intro _ id hid; exact absurd hid (Nat.not_lt_zero id)
  | succ m ih =>
    intro hm id hid
    have hmE : m < r.entries := hm
    have hmE' : m < 2 ^ k := by omega
    rw [initFold_succ]
    show ((initFold r m).descs.set
        (wrap32 ((initFold r m).tail + m) &&& (initFold r m).mask)
        (mkDesc (initFold r m) m))[(r.tail + id) % 2 ^ k]? = some (mkDesc r id)
    have hoff : wrap32 ((initFold r m).tail + m) &&& (initFold r m).mask
        = (r.tail + m) % 2 ^ k := by
      rw [initFold_tail, initFold_mask, hmask, hE]
      have hw : wrap32 (r.tail + m) = r.tail + m := by
        unfold wrap32 U32_MOD
        exact Nat.mod_eq_of_lt (by omega)
      rw [hw, Nat.and_pow_two_sub_one_eq_mod]
    rw [hoff, mkDesc_initFold]
    rcases Nat.lt_or_ge id m with hlt | hge
    · have hne : (r.tail + m) % 2 ^ k ≠ (r.tail + id) % 2 ^ k := by
        intro heq
        have hmodeq : id ≡ m [MOD 2 ^ k] :=
          Nat.ModEq.add_left_cancel' r.tail (Nat.ModEq.symm heq)
        have : id % 2 ^ k = m % 2 ^ k := hmodeq
        rw [Nat.mod_eq_of_lt (by omega), Nat.mod_eq_of_lt hmE'] at this
        omega
      rw [List.getElem?_set_ne hne]
      exact ih (by omega) id hlt
    · have hidm : id = m := by omega
      subst hidm
      apply List.getElem?_set_self
      rw [initFold_length, hlen, hE]
      exact Nat.mod_lt _ (Nat.pos_pow_of_pos k (by omega))

theorem init_descs (r : BufRing .Registered) :
    (init r).descs = (initFold r (entriesFn r)).descs := rfl

theorem init_tail (r : BufRing .Registered) :
    (init r).tail = wrap16 (r.tail + entriesFn r) := by
  show wrap16 ((initFold r (entriesFn r)).tail + entriesFn r) = _
  rw [initFold_tail]

theorem init_buffer_base (r : BufRing .Registered) :
    (init r).buffer_base = r.buffer_base := by
  show (initFold r (entriesFn r)).buffer_base = r.buffer_base
  rw [initFold_buffer_base]

theorem init_buf_size (r : BufRing .Registered) :
    (init r).buf_size = r.buf_size := by
  show (initFold r (entriesFn r)).buf_size = r.buf_size
  rw [initFold_buf_size]

theorem isPow2Aux_pow (fuel : Nat) :
    ∀ n, isPow2Aux fuel n = true → ∃ j, n = 2 ^ j := by
  induction fuel with
  | zero => intro n h; simp [isPow2Aux] at h
  | succ fuel ih =>
    intro n h
    match n with
    | 0 => simp [isPow2Aux] at h
    | 1 => exact ⟨0, rfl⟩
    | n + 2 =>
      rw [isPow2Aux, Bool.and_eq_true, beq_iff_eq] at h
      obtain ⟨j, hj⟩ := ih ((n + 2) / 2) h.2
      refine ⟨j + 1, ?_⟩
      have h2 : (n + 2) % 2 = 0 := h.1
      have : n + 2 = 2 * ((n + 2) / 2) := by omega
      rw [this, hj, Nat.pow_succ, Nat.mul_comm]

theorem nextPow2Aux_spec (fuel : Nat) :
    ∀ n, 1 ≤ n → n ≤ 2 ^ fuel →
      ∃ j, nextPow2Aux fuel n = 2 ^ j ∧ n ≤ 2 ^ j ∧ 2 ^ j < 2 * n := by
  induction fuel with
  | zero =>
    intro n h1 h2
    have : n = 1 := by simpa using Nat.le_antisymm h2 h1
    subst this
    exact ⟨0, rfl, by omega, by omega⟩
  | succ fuel ih =>
    intro n h1 h2
    rw [nextPow2Aux]
    by_cases hle : n ≤ 1
    · have : n = 1 := by omega
      subst this
      exact ⟨0, by simp, by omega, by omega⟩
    · rw [if_neg hle]
      rw [Nat.pow_succ, Nat.mul_comm] at h2
      have hm2 : (n + 1) / 2 ≤ 2 ^ fuel := by omega
      obtain ⟨j, hj, hjl, hju⟩ := ih ((n + 1) / 2) (by omega) hm2
      refine ⟨j + 1, ?_, ?_, ?_⟩
      · rw [hj, Nat.pow_succ, Nat.mul_comm]
      · rw [Nat.pow_succ, Nat.mul_comm]; omega
      · rw [Nat.pow_succ, Nat.mul_comm]
        rcases j with _ | j'
        · simp at hjl hju ⊢; omega
        · rw [Nat.pow_succ, Nat.mul_comm] at hj hjl hju
          have hne : 2 * 2 ^ j' ≠ n := by intro h; omega
          have hle2 : 2 * 2 ^ j' ≤ n := by omega
          omega

theorem normEntries_spec (n : Nat) (h1 : 0 < n) (h2 : n ≤ 32768) :
    ∃ j, normEntries n = 2 ^ j ∧ n ≤ 2 ^ j ∧ 2 ^ j < 2 * n := by
  unfold normEntries
  by_cases hp : isPow2 n
  · rw [if_pos hp]
    obtain ⟨j, hj⟩ := isPow2Aux_pow 17 n hp
    exact ⟨j, hj, by omega, by omega⟩
  · rw [if_neg hp]
    apply nextPow2Aux_spec 17 n h1
    calc n ≤ 32768 := h2
    _ ≤ 2 ^ 17 := by norm_num

/-! ## Concrete rings used by witnesses and counterexamples -/

/-- The all-zero byte memory. -/
def memZ : Nat → Nat := fun _ => 0

/-- A small concrete registered ring: 2 entries of 4 bytes each. -/
def ringReg2 : BufRing .Registered :=
  { base := 0, entries := 2, buf_size := 4, mask := 1, bgid := 0,
    buffer_base := 32, descs := List.replicate 2 BufRingEntry.zero, tail := 0 }

/-- The concrete ring after `init`: both descriptors written, tail 2. -/
def ringInit2 : BufRing .Init := init ringReg2

/-- A concrete registered ring whose buffer size `2^31` makes the `u32`
offset product `id * buf_size` wrap for `id = 2`. -/
def ringRegWide : BufRing .Registered :=
  { base := 0, entries := 4, buf_size := 2147483648, mask := 3, bgid := 0,
    buffer_base := 100, descs := List.replicate 4 BufRingEntry.zero, tail := 0 }

/-- Decidable equality for `Except`, used to evaluate the model on
concrete inputs. -/
instance {e a : Type} [DecidableEq e] [DecidableEq a] :
    DecidableEq (Except e a) := fun x y =>
  match x, y with
  | .ok u, .ok v =>
    if h : u = v then isTrue (by rw [h])
    else isFalse (by intro hc; cases hc; exact h rfl)
  | .error u, .error v =>
    if h : u = v then isTrue (by rw [h])
    else isFalse (by intro hc; cases hc; exact h rfl)
  | .ok _, .error _ => isFalse (by intro hc; cases hc)
  | .error _, .ok _ => isFalse (by intro hc; cases hc)

/-! ## Claim theorems -/

/-- Claim C8 (confirmed): if `register` (from `Uninit`) or `unregister_`
(from `Registered` or `Init`) fails, the operation returns the error
together with the original ring handle unchanged in its prior state. -/
theorem c8_failed_transition_returns_ring (ru : BufRing .Uninit)
    (rr : BufRing .Registered) (ri : BufRing .Init) (e : Int) :
    register ru (.err e) = .error (.osError e, ru) ∧
    unregister_ rr (.err e) = .error (.osError e, rr) ∧
    unregister_ ri (.err e) = .error (.osError e, ri) :=
  ⟨rfl, rfl, rfl⟩

/-- Claim C9 (confirmed): entry count 0 and entry count 65535 (`u16::MAX`)
are both rejected with `InvalidInput`, whatever the other arguments and
whatever `mmap` would have answered, and control never reaches `mmap`. -/
theorem c9_rejected_entry_counts (bs bgid : Nat) (opts : MapOpts)
    (mm : MmapResult) :
    new_with_opts 0 bs bgid opts mm = .error .invalidInput ∧
    new_with_opts 65535 bs bgid opts mm = .error .invalidInput ∧
    reachesMmap 0 = false ∧ reachesMmap 65535 = false :=
  ⟨rfl, rfl, rfl, rfl⟩

/-- Claim C10 (confirmed): buffer offset arithmetic is 32-bit unsigned:
the address used for buffer `id` — by `get_buffer`, in descriptors written
by `add`, and as the start of the slice returned by `buffer` — is
`buffer_base + ((id * buf_size) mod 2^32)` (the literal 4294967296 is
`2^32`), and it equals `buffer_base + id * buf_size` exactly when
`id * buf_size < 2^32`. -/
theorem c10_offset_arithmetic_mod32 (r : BufRing .Init) (id off : Nat)
    (mem : Nat → Nat) :
    get_buffer r id = r.buffer_base + (id * r.buf_size) % 4294967296 ∧
    (add r id off).descs = r.descs.set (wrap32 (r.tail + off) &&& r.mask)
      { addr := wrap64 (r.buffer_base + (id * r.buf_size) % 4294967296),
        len := r.buf_size, bid := wrap16 id } ∧
    BufRing.bufferBytes r mem id =
      (List.range r.buf_size).map
        (fun i => mem (r.buffer_base + (id * r.buf_size) % 4294967296 + i)) ∧
    (get_buffer r id = r.buffer_base + id * r.buf_size ↔
      id * r.buf_size < 4294967296) := by
  refine ⟨rfl, rfl, rfl, ?_⟩
  unfold get_buffer wrap32 U32_MOD
  omega

/-- Tail effect of repeatedly releasing views: each release advances the
16-bit tail cursor by exactly one. -/
theorem drop_foldl_tail (bs : List BufferId) :
    ∀ r : BufRing .Init, r.tail < 65536 →
      (bs.foldl (fun acc b2 => BufferId.dropRing b2 acc) r).tail =
        wrap16 (r.tail + bs.length) := by
  induction bs with
  | nil =>
    intro r htail
    show r.tail = wrap16 (r.tail + 0)
    unfold wrap16 U16_MOD
    omega
  | cons b2 bs ih =>
    intro r htail
    rw [List.foldl_cons]
    have h2 : (BufferId.dropRing b2 r).tail < 65536 := by
      show (r.tail + 1) % 65536 < 65536
      omega
    rw [ih _ h2]
    show wrap16 (wrap16 (r.tail + 1) + bs.length) = wrap16 (r.tail + (b2 :: bs).length)
    unfold wrap16 U16_MOD
    rw [Nat.mod_add_mod]
    congr 1
    simp [List.length_cons]
    omega

/-- Claim C1 (corrected): releasing a resolved `BufferView` calls
`ring.advance(1)` exactly once per view — the tail cursor moves by exactly
one per release, never zero, never two — but, contrary to the claim, the
drop writes no fresh descriptor: the descriptor array is completely
unchanged.  The slot republished by the advance keeps whatever descriptor
was previously stored there. -/
theorem c1_release_advances_once (b : BufferId) (r : BufRing .Init)
    (htail : r.tail < 65536) :
    BufferId.dropRing b r = advance_ r 1 ∧
    (BufferId.dropRing b r).descs = r.descs ∧
    (BufferId.dropRing b r).tail = wrap16 (r.tail + 1) ∧
    ∀ bs : List BufferId,
      (bs.foldl (fun acc b2 => BufferId.dropRing b2 acc) r).tail =
        wrap16 (r.tail + bs.length) :=
  ⟨rfl, rfl, rfl, fun bs => drop_foldl_tail bs r htail⟩

/-- Witness for C1 at the concrete initialized 2-entry ring. -/
theorem c1_witness :
    (BufferId.dropRing ⟨1, 1⟩ ringInit2).descs = ringInit2.descs ∧
    (BufferId.dropRing ⟨1, 1⟩ ringInit2).tail = wrap16 (ringInit2.tail + 1) :=
  ⟨(c1_release_advances_once ⟨1, 1⟩ ringInit2 (by decide)).2.1,
   (c1_release_advances_once ⟨1, 1⟩ ringInit2 (by decide)).2.2.1⟩

/-- Counterexample to C1 as stated: after resolving the view for buffer
id 1 on the concrete initialized 2-entry ring (tail 2), its release leaves
every descriptor unchanged — it does not write a fresh descriptor for
buffer id 1 at the tail slot mod mask, as the claimed release protocol
(`specRelease`) would. -/
theorem c1_counterexample :
    BufferId.new ⟨65537, 1⟩ = .ok (some ⟨1, 1⟩) ∧
    (BufferId.dropRing ⟨1, 1⟩ ringInit2).descs = ringInit2.descs ∧
    BufferId.dropRing ⟨1, 1⟩ ringInit2 ≠ specRelease ringInit2 1 ∧
    (specRelease ringInit2 1).descs ≠ ringInit2.descs := by
  refine ⟨by decide, by decide, by decide, by decide⟩

/-- Claim C4 (corrected): the resolver checks the result code FIRST, not
the attached flag.  A completion with the attached flag unset yields
`Ok(None)` only when its result is non-negative; a negative result yields
an error regardless of the flag bits. -/
theorem c4_result_checked_before_flag (flags : Nat) (res : Int) :
    (0 ≤ res → flags &&& IORING_CQE_F_BUFFER = 0 →
      BufferId.new ⟨flags, res⟩ = .ok none) ∧
    (res < 0 →
      BufferId.new ⟨flags, res⟩ = .error (.osError (i32neg res))) := by
  have hres : ({ flags := flags, result := res } : Cqe).result = res := rfl
  have hflags : ({ flags := flags, result := res } : Cqe).flags = flags := rfl
  constructor
  · intro h1 h2
    unfold BufferId.new
    rw [hres, hflags, if_neg (by omega), if_pos h2]
  · intro h
    unfold BufferId.new
    rw [hres, if_pos h]

/-- Witness for C4: attached flag unset and non-negative result gives
`Ok(None)`. -/
theorem c4_witness : BufferId.new ⟨0, 7⟩ = .ok none :=
  (c4_result_checked_before_flag 0 7).1 (by decide) (by decide)

/-- Counterexample to C4 as stated: with the attached flag unset and
result `-7`, `resolve` does NOT return `Ok(None)` — the negative result is
checked first and surfaces as OS error 7. -/
theorem c4_counterexample :
    BufferId.new ⟨0, -7⟩ = .error (.osError 7) ∧
    BufferId.new ⟨0, -7⟩ ≠ .ok none := by
  constructor <;> decide

/-- Claim C5 (corrected): for a completion record with negative result
strictly above `i32::MIN`, `resolve` returns the error of the negated OS
code and yields no view (the error return precedes any buffer checkout,
so no tail advance is owed).  At `i32::MIN` itself the `i32` negation
wraps (C5 counterexample), which is why the lower bound is needed. -/
theorem c5_negative_result_error (cqe : Cqe) (h1 : cqe.result < 0)
    (h2 : -2147483648 < cqe.result) :
    BufferId.new cqe = .error (.osError (-cqe.result)) := by
  unfold BufferId.new
  rw [if_pos h1]
  have hneg : i32neg cqe.result = -cqe.result := by
    unfold i32neg i32wrap
    have e31 : ((2:Int) ^ 31) = 2147483648 := by norm_num
    have e32 : ((2:Int) ^ 32) = 4294967296 := by norm_num
    rw [e31, e32, Int.emod_eq_of_lt (by omega) (by omega)]
    omega
  rw [hneg]

/-- Witness for C5: result `-5` yields OS error 5 and no view. -/
theorem c5_witness : BufferId.new ⟨0, -5⟩ = .error (.osError 5) :=
  (c5_negative_result_error ⟨0, -5⟩ (by decide) (by decide)).trans (by decide)

/-- Counterexample to C5 as stated at `i32::MIN`: negating the result
wraps back to `i32::MIN` (debug builds would panic), so the reported code
is not the mathematically negated OS code `2147483648`. -/
theorem c5_counterexample :
    BufferId.new ⟨0, -2147483648⟩ = .error (.osError (-2147483648)) ∧
    BufferId.new ⟨0, -2147483648⟩ ≠ .error (.osError 2147483648) := by
  constructor <;> decide

/-- Claim C2 (corrected): `BufferId::buffer` does NOT clamp the reported
length to `buffer_size`.  The view length is exactly the result code
(`cqe_res as usize`) whenever that fits inside the buffer, and when the
result exceeds `buffer_size` the slicing `[..cqe_res]` panics (modelled as
`none`) instead of yielding a `buffer_size`-bounded view. -/
theorem c2_view_length_unclamped (r : BufRing .Init) (mem : Nat → Nat)
    (b : BufferId) :
    (usizeCast b.cqe_res ≤ r.buf_size →
      BufferId.buffer b r mem =
        some ((BufRing.bufferBytes r mem b.buf_id).take (usizeCast b.cqe_res)) ∧
      ∃ bytes, BufferId.buffer b r mem = some bytes ∧
        bytes.length = usizeCast b.cqe_res) ∧
    (r.buf_size < usizeCast b.cqe_res → BufferId.buffer b r mem = none) := by
  have hlen : (BufRing.bufferBytes r mem b.buf_id).length = r.buf_size := by
    unfold BufRing.bufferBytes
    simp
  constructor
  · intro h
    have hif : BufferId.buffer b r mem =
        some ((BufRing.bufferBytes r mem b.buf_id).take (usizeCast b.cqe_res)) := by
      unfold BufferId.buffer
      rw [if_pos (by rw [hlen]; exact h)]
    refine ⟨hif, _, hif, ?_⟩
    rw [List.length_take, hlen]
    omega
  · intro h
    unfold BufferId.buffer
    rw [if_neg (by rw [hlen]; omega)]

/-- Witness for C2: a view with result 2 over the 4-byte buffers of the
concrete ring has exactly 2 bytes. -/
theorem c2_witness : BufferId.buffer ⟨0, 2⟩ ringInit2 memZ = some [0, 0] :=
  (((c2_view_length_unclamped ringInit2 memZ ⟨0, 2⟩).1 (by decide)).1).trans
    (by decide)

/-- Counterexample to C2 as stated: a completion for buffer id 0 reporting
6 bytes on a ring whose buffers hold 4 bytes resolves fine, but reading the
view panics (`none`) instead of yielding a view clamped to 4 bytes. -/
theorem c2_counterexample :
    BufferId.new ⟨1, 6⟩ = .ok (some ⟨0, 6⟩) ∧
    BufferId.buffer ⟨0, 6⟩ ringInit2 memZ = none := by
  constructor <;> decide

/-- Claim C3 (corrected): `init` writes, for every buffer id `id` below
`entries`, a descriptor with length `buf_size` and id `id` at ring slot
`(current_tail + id) & mask`, and only afterwards advances the tail by
`entries` in one step (the tail is untouched during the writes).  However
the descriptor address is `buffer_base + ((id * buf_size) mod 2^32)` — the
offset product is computed in `u32` — rather than the claimed unwrapped
`buffer_base + id * buf_size` (4294967296 is `2^32`). -/
theorem c3_init_descriptors (r : BufRing .Registered) (k : Nat)
    (hE : r.entries = 2 ^ k) (hk : k < 16)
    (hmask : r.mask = r.entries - 1)
    (hlen : r.descs.length = r.entries)
    (htail : r.tail < 65536)
    (hbb : r.buffer_base + 4294967296 ≤ 18446744073709551616) :
    (∀ id, id < r.entries →
      ((init r).descs)[(r.tail + id) &&& r.mask]? =
        some { addr := r.buffer_base + (id * r.buf_size) % 4294967296,
               len := r.buf_size, bid := id }) ∧
    (init r).tail = wrap16 (r.tail + r.entries) ∧
    (initFold r (entriesFn r)).tail = r.tail := by
  have hElt : r.entries < 65536 := by
    rw [hE]
    calc (2:Nat) ^ k < 2 ^ 16 := Nat.pow_lt_pow_right (by omega) hk
    _ = 65536 := by norm_num
  have hEfn : entriesFn r = r.entries := by
    unfold entriesFn wrap16 U16_MOD
    omega
  refine ⟨?_, ?_, ?_⟩
  · intro id hid
    have h1 := initFold_getElem r k hE hmask hlen htail hk r.entries
      le_rfl id hid
    have hidx : (r.tail + id) &&& r.mask = (r.tail + id) % 2 ^ k := by
      rw [hmask, hE, Nat.and_pow_two_sub_one_eq_mod]
    rw [init_descs, hEfn, hidx, h1]
    have hid16 : id < 65536 := by omega
    unfold mkDesc get_buffer wrap64 wrap32 wrap16 U64_MOD U32_MOD U16_MOD
    congr 1
    congr 1
    · exact Nat.mod_eq_of_lt (by omega)
    · exact Nat.mod_eq_of_lt (by omega)
  · rw [init_tail, hEfn]
  · rw [initFold_tail]

/-- Witness for C3 at the concrete 2-entry ring (`buf_size` 4,
`buffer_base` 32): slot `(0 + 1) & 1` holds the descriptor of buffer 1. -/
theorem c3_witness :
    ((init ringReg2).descs)[(ringReg2.tail + 1) &&& ringReg2.mask]? =
      some { addr := 36, len := 4, bid := 1 } :=
  (((c3_init_descriptors ringReg2 1 rfl (by decide) rfl (by decide)
      (by decide) (by decide)).1) 1 (by decide)).trans (by decide)

/-- Counterexample to C3 as stated: on a ring with 4 entries of `2^31`
bytes, the descriptor written for buffer id 2 has address
`buffer_base + ((2 * 2^31) mod 2^32) = buffer_base`, not the claimed
`buffer_base + 2 * 2^31`. -/
theorem c3_counterexample :
    ((init ringRegWide).descs)[(ringRegWide.tail + 2) &&& ringRegWide.mask]? =
      some { addr := 100, len := 2147483648, bid := 2 } ∧
    (100 : Nat) ≠ ringRegWide.buffer_base + 2 * ringRegWide.buf_size := by
  constructor <;> decide

/-- Claim C6 (corrected): after `init`, resolving a completion whose flags
have the attached bit set and carry buffer id `k` in the upper 16 bits,
with non-negative result `res`, yields a view over exactly the bytes at
`buffer_base + k * buf_size`, of length `res` — PROVIDED `res` does not
exceed `buf_size` (otherwise the view read panics, see the C6
counterexample) and the `u32` product `k * buf_size` does not wrap
(4294967296 is `2^32`). -/
theorem c6_roundtrip_buffer_id (r0 : BufRing .Registered) (mem : Nat → Nat)
    (k res flags : Nat)
    (_hkE : k < r0.entries)
    (hbs : r0.buf_size < 4294967296)
    (hno : k * r0.buf_size < 4294967296)
    (hres : res ≤ r0.buf_size)
    (hfl : flags < 4294967296)
    (hfb : flags &&& IORING_CQE_F_BUFFER ≠ 0)
    (hfk : flags >>> IORING_CQE_BUFFER_SHIFT = k) :
    BufferId.new ⟨flags, (res : Int)⟩ = .ok (some ⟨k, (res : Int)⟩) ∧
    BufferId.buffer ⟨k, (res : Int)⟩ (init r0) mem =
      some ((List.range res).map
        (fun i => mem (r0.buffer_base + k * r0.buf_size + i))) := by
  have hk16 : k < 65536 := by
    have hdiv : flags >>> IORING_CQE_BUFFER_SHIFT = flags / 65536 := by
      unfold IORING_CQE_BUFFER_SHIFT
      rw [Nat.shiftRight_eq_div_pow]
    rw [hdiv] at hfk
    omega
  constructor
  · have h1 : ({ flags := flags, result := (res : Int) } : Cqe).result =
        (res : Int) := rfl
    have h2 : ({ flags := flags, result := (res : Int) } : Cqe).flags =
        flags := rfl
    unfold BufferId.new
    rw [h1, h2, if_neg (by omega), if_neg hfb, hfk]
    have hw : wrap16 k = k := by
      unfold wrap16 U16_MOD
      omega
    rw [hw]
  · have hbb2 : (init r0).buffer_base = r0.buffer_base := init_buffer_base r0
    have hbs2 : (init r0).buf_size = r0.buf_size := init_buf_size r0
    have hcast : usizeCast ((res : Int)) = res := by
      unfold usizeCast
      rw [Int.emod_eq_of_lt (by omega) (by omega)]
      exact Int.toNat_natCast res
    have hgb : get_buffer (init r0) k = r0.buffer_base + k * r0.buf_size := by
      unfold get_buffer wrap32 U32_MOD
      rw [hbb2, hbs2]
      omega
    have hbytes : BufRing.bufferBytes (init r0) mem k =
        (List.range r0.buf_size).map
          (fun i => mem (r0.buffer_base + k * r0.buf_size + i)) := by
      unfold BufRing.bufferBytes
      rw [hbs2, hgb]
    have hB1 : ({ buf_id := k, cqe_res := (res : Int) } : BufferId).cqe_res =
        (res : Int) := rfl
    have hB2 : ({ buf_id := k, cqe_res := (res : Int) } : BufferId).buf_id =
        k := rfl
    have hlen2 : (BufRing.bufferBytes (init r0) mem k).length = r0.buf_size := by
      rw [hbytes]
      simp
    unfold BufferId.buffer
    rw [hB1, hB2, hcast, if_pos (by rw [hlen2]; exact hres), hbytes,
      ← List.map_take, List.take_range, Nat.min_eq_left hres]

/-- Witness for C6 on the concrete 2-entry ring: buffer id 1, result 3. -/
theorem c6_witness :
    BufferId.new ⟨65537, 3⟩ = .ok (some ⟨1, 3⟩) ∧
    BufferId.buffer ⟨1, 3⟩ (init ringReg2) memZ = some [0, 0, 0] := by
  have h := c6_roundtrip_buffer_id ringReg2 memZ 1 3 65537 (by decide)
    (by decide) (by decide) (by decide) (by decide) (by decide) (by decide)
  exact ⟨h.1, h.2.trans (by decide)⟩

/-- Counterexample to C6 as stated: with result 5 exceeding the 4-byte
buffer size, resolution still succeeds but the view is not the claimed
5-byte slice — reading it panics (`none`). -/
theorem c6_counterexample :
    BufferId.new ⟨65537, 5⟩ = .ok (some ⟨1, 5⟩) ∧
    BufferId.buffer ⟨1, 5⟩ ringInit2 memZ = none := by
  constructor <;> decide

/-- Claim C7 (corrected): for requested entry counts `0 < n ≤ 32768`,
`new_with_opts` succeeds (given a successful mapping) and the ring
`entries()` is the least power of two that is `≥ n` — i.e. `n` itself when
`n` is a power of two, else the next power of two above `n`.  For
`32768 < n < 65535` the claim fails: `u16::next_power_of_two` overflows
(C7 counterexample). -/
theorem c7_power_of_two_normalization (n bs bgid : Nat) (opts : MapOpts)
    (base : Nat) (h1 : 0 < n) (h2 : n ≤ 32768) :
    ∃ (r : BufRing .Uninit) (j : Nat),
      new_with_opts n bs bgid opts (.ok base) = .ok r ∧
      entriesFn r = 2 ^ j ∧ n ≤ 2 ^ j ∧ 2 ^ j < 2 * n ∧
      (∀ i, n = 2 ^ i → entriesFn r = n) := by
  obtain ⟨j, hnorm, hle, hlt⟩ := normEntries_spec n h1 h2
  have hlt65536 : normEntries n < 65536 := by omega
  have hcond : ¬(n = 0 ∨ n = 65535) := by omega
  refine ⟨{ base := base, entries := normEntries n, buf_size := bs,
            mask := normEntries n - 1, bgid := bgid,
            buffer_base := base + normEntries n * entrySize,
            descs := List.replicate (normEntries n) BufRingEntry.zero,
            tail := 0 }, j, ?_, ?_, hle, hlt, ?_⟩
  · unfold new_with_opts
    rw [if_neg hcond, if_neg (by omega)]
  · show wrap16 (normEntries n) = 2 ^ j
    unfold wrap16 U16_MOD
    omega
  · intro i hi
    show wrap16 (normEntries n) = n
    unfold wrap16 U16_MOD
    rw [Nat.mod_eq_of_lt hlt65536, hnorm, hi]
    congr 1
    have hji : i ≤ j := (Nat.pow_le_pow_iff_right (by omega)).mp (hi ▸ hle)
    have h2i : (2:Nat) ^ j < 2 ^ (i + 1) := by
      rw [Nat.pow_succ']
      omega
    have hij : j < i + 1 := (Nat.pow_lt_pow_iff_right (by omega)).mp h2i
    omega

/-- Witness for C7 at `n = 3`: creation succeeds and `entries()` is 4. -/
theorem c7_witness :
    ∃ (r : BufRing .Uninit) (j : Nat),
      new_with_opts 3 4096 7 MapOpts.default (.ok 0) = .ok r ∧
      entriesFn r = 2 ^ j ∧ 3 ≤ 2 ^ j ∧ 2 ^ j < 2 * 3 ∧
      (∀ i, 3 = 2 ^ i → entriesFn r = 3) :=
  c7_power_of_two_normalization 3 4096 7 MapOpts.default 0 (by decide)
    (by decide)

/-- Counterexample to C7 as stated: at `n = 40000` (inside the claimed
range `(0, 65535)`), the next power of two is 65536, which does not fit in
`u16`; creation fails (debug builds panic inside `next_power_of_two`) and
never reaches `mmap`, instead of succeeding with `entries() = 65536`. -/
theorem c7_counterexample :
    new_with_opts 40000 4096 0 MapOpts.default (.ok 0) = .error .powOverflow ∧
    reachesMmap 40000 = false := by
  constructor <;> decide

end BufRingLib
